import Mathlib

/-!
Shallow embedding of `climlab/domain/field.py`: the `Field` array subclass
(constructor with shape reconciliation, `__array_finalize__` domain
propagation) and the `global_mean` reduction.

Numeric array contents are modelled over `ℝ` (row-major flattened buffer
plus a shape list, mirroring a numpy ndarray).  Python exceptions are
modelled with an explicit error type and `Except`.
-/

namespace Climlab

/-- Python exceptions that the embedded code can raise:
`AttributeError` (attribute access on `None`), `KeyError` (dict lookup
miss), a `ValueError` with its message string, and the generic broadcast
error the array engine raises on incompatible shapes. -/
inductive PyError where
  | attributeError : PyError
  | keyError : PyError
  | valueError : String → PyError
  | broadcastError : PyError
  deriving DecidableEq, Repr

/-- A numpy ndarray: a shape (list of per-axis lengths, row-major) and a
flat data buffer whose length is the product of the shape. -/
structure NDArray where
  shape : List Nat
  data : List ℝ
  hsize : data.length = shape.prod

/-- `np.atleast_1d`: a 0-d (scalar) array becomes a length-1 vector;
arrays of rank ≥ 1 are returned unchanged. -/
def atleast_1d (a : NDArray) : NDArray :=
  match h : a.shape with
  | [] => ⟨[1], a.data, by rw [a.hsize, h]; rfl⟩
  | _ :: _ => a

/-- `np.atleast_2d`: a 0-d array becomes shape (1,1), a rank-1 array of
length n becomes shape (1,n), higher ranks unchanged. -/
def atleast_2d (a : NDArray) : NDArray :=
  match h : a.shape with
  | [] => ⟨[1, 1], a.data, by rw [a.hsize, h]; rfl⟩
  | [n] => ⟨[1, n], a.data, by rw [a.hsize, h]; simp⟩
  | _ :: _ :: _ => a

/-- Row-major flat index of a multi-index `m` in shape `s`. -/
def fromMulti : List Nat → List Nat → Nat
  | [], _ => 0
  | _ :: rest, [] => rest.prod * 0
  | _ :: rest, i :: is => i * rest.prod + fromMulti rest is

/-- Multi-index of flat index `k` in shape `s` (row-major). -/
def toMulti : List Nat → Nat → List Nat
  | [], _ => []
  | _ :: rest, k => (k / rest.prod) :: toMulti rest (k % rest.prod)

/-- `np.transpose` with no axes argument: reverse all axes.  The element
at multi-index `m` of the result is the element at multi-index
`m.reverse` of the input. -/
def npTranspose (a : NDArray) : NDArray where
  shape := a.shape.reverse
  data := (List.range a.shape.reverse.prod).map fun k =>
    a.data.getD (fromMulti a.shape ((toMulti a.shape.reverse k).reverse)) 0
  hsize := by simp

/-- A latitude/longitude/... axis of a Domain: its coordinate points. -/
structure Axis where
  points : List ℝ

/-- The external Domain collaborator: a shape and a mapping from axis
names to axes. -/
structure Domain where
  shape : List Nat
  axes : List (String × Axis)

/-- A climlab Field: ndarray contents plus a `domain` attribute
(`none` models Python `None`). -/
structure Field where
  arr : NDArray
  domain : Option Domain

/-- Attribute access `domain.shape` on a possibly-`None` domain:
`None.shape` raises `AttributeError`. -/
def shapeAttr : Option Domain → Except PyError (List Nat)
  | none => .error .attributeError
  | some d => .ok d.shape

/-- View-casting a plain ndarray to the Field class
(`np.atleast_1d(input_array).view(cls)`): `__array_finalize__` sees a
plain ndarray, so `getattr(obj, 'domain', None)` yields `None`. -/
def viewAsField (a : NDArray) : Field := ⟨a, none⟩

/-- `__array_finalize__` on new-from-template creation: any array derived
from an existing Field (slice, transpose, arithmetic result, templated
creation) gets `domain = getattr(parent, 'domain', None)`, i.e. the
parent Field's domain, with no shape re-validation. -/
def deriveField (parent : Field) (newArr : NDArray) : Field :=
  ⟨newArr, parent.domain⟩

/-- `Field.__new__(cls, input_array, domain=None)`.
Mirrors the source line by line: promote to rank ≥ 1 and view-cast; the
comparison `obj.shape == domain.shape` sits OUTSIDE the try block, so a
`None` domain raises `AttributeError` there; on mismatch the try block
transposes the rank-≥2 promotion and attaches the domain only if the new
shape matches, silently falling through (returning the transposed array
with its finalize-default `domain = None`) otherwise.  Nothing in the try
body can raise, so the `except: raise ValueError(...)` branch has no
reachable counterpart in the model. -/
def Field.new (input_array : NDArray) (domain : Option Domain) :
    Except PyError Field := do
  let obj := viewAsField (atleast_1d input_array)
  let dshape ← shapeAttr domain
  if obj.arr.shape = dshape then
    return { obj with domain := domain }
  else
    let obj2 := deriveField obj (npTranspose (atleast_2d obj.arr))
    if obj2.arr.shape = dshape then
      return { obj2 with domain := domain }
    else
      return obj2

/-- Basic slicing `f[i:j]` on the first axis (Python slice semantics:
bounds clamped to the axis length, empty when `j ≤ i`).  The derived
array inherits the parent Field's domain via `__array_finalize__`. -/
def NDArray.sliceFirst (a : NDArray) (i j : Nat) : NDArray :=
  match h : a.shape with
  | [] => a
  | n :: rest =>
    ⟨(min j n - min i n) :: rest,
     (a.data.drop (min i n * rest.prod)).take ((min j n - min i n) * rest.prod),
     by
      have hd : a.data.length = n * rest.prod := by
        rw [a.hsize, h, List.prod_cons]
      have hlen : (min j n - min i n) * rest.prod ≤
          n * rest.prod - min i n * rest.prod := by
        rw [← Nat.sub_mul]
        exact Nat.mul_le_mul_right _ (by omega)
      simp only [List.length_take, List.length_drop, hd, List.prod_cons]
      omega⟩

/-- `f[i:j]` on a Field. -/
def Field.slice (f : Field) (i j : Nat) : Field :=
  deriveField f (f.arr.sliceFirst i j)

/-- Element-wise arithmetic between two Fields (e.g. `f + g`) for equal
shapes; a shape mismatch is the array engine's generic broadcast error.
The result's `__array_finalize__` inherits the left operand's domain. -/
def Field.add (f g : Field) : Except PyError Field :=
  if h : f.arr.shape = g.arr.shape then
    .ok (deriveField f ⟨f.arr.shape,
      List.zipWith (· + ·) f.arr.data g.arr.data, by
        simp [List.length_zipWith, f.arr.hsize, g.arr.hsize, h]⟩)
  else .error .broadcastError

/-- `np.zeros_like(f)`: templated creation; same shape, zero contents,
domain inherited from `f` via `__array_finalize__`. -/
def Field.zerosLike (f : Field) : Field :=
  deriveField f ⟨f.arr.shape, List.replicate f.arr.shape.prod 0, by simp⟩

/-- Dropping every axis of length 1 from a shape keeps its product. -/
theorem prod_filter_ne_one (s : List Nat) :
    (s.filter (fun d => d != 1)).prod = s.prod := by
  induction s with
  | nil => rfl
  | cons d rest ih =>
    by_cases h : d = 1
    · simp [List.filter_cons, h, ih]
    · simp [List.filter_cons, bne_iff_ne, h, ih]

/-- `ndarray.squeeze()`: drop all axes of length 1 (data unchanged). -/
def NDArray.squeeze (a : NDArray) : NDArray :=
  ⟨a.shape.filter (fun d => d != 1), a.data, by
    rw [a.hsize, prod_filter_ne_one]⟩

/-- `np.deg2rad`: degrees to radians. -/
noncomputable def deg2rad (x : ℝ) : ℝ := x * (Real.pi / 180)

/-- The lookup `field.domain.axes['lat'].points` from the try block of
`global_mean`: `None.axes` raises `AttributeError`, a missing `'lat'`
key raises `KeyError`. -/
def lookupLat (f : Field) : Except PyError (List ℝ) :=
  match f.domain with
  | none => .error .attributeError
  | some d =>
    match d.axes.lookup "lat" with
    | none => .error .keyError
    | some ax => .ok ax.points

/-- The broadcast product `array * np.cos(lat_radians)` as used by
`_global_mean`, modelled for the element-wise case (array of rank 1
matching the latitude vector); any other shape combination is modelled
as the engine's broadcast error (the spec assumes compatibility and does
not validate it). -/
noncomputable def mulCos (a : NDArray) (lat_radians : List ℝ) : Except PyError NDArray :=
  if h : a.shape = [lat_radians.length] then
    .ok ⟨a.shape, List.zipWith (fun x w => x * Real.cos w) a.data lat_radians,
      by simp [List.length_zipWith, a.hsize, h]⟩
  else .error .broadcastError

/-- `_global_mean(array, lat_radians)`:
`np.sum(array * np.cos(lat_radians)) / np.sum(np.cos(lat_radians))`. -/
noncomputable def global_mean_aux (a : NDArray) (lat_radians : List ℝ) :
    Except PyError ℝ := do
  let prod ← mulCos a lat_radians
  return prod.data.sum / (lat_radians.map Real.cos).sum

/-- `global_mean(field)`: look up the latitude points (any failure is
folded into `ValueError('No latitude axis in input field.')`), convert
to radians, and average the squeezed contents with cos-latitude
weights. -/
noncomputable def global_mean (f : Field) : Except PyError ℝ :=
  match lookupLat f with
  | .error _ => .error (.valueError "No latitude axis in input field.")
  | .ok lat => global_mean_aux f.arr.squeeze (lat.map deg2rad)

/-! ## Evaluation lemmas and concrete values -/

/-- Promotion to rank ≥ 1 leaves an array of rank ≥ 1 unchanged. -/
theorem atleast_1d_of_ne_nil (A : NDArray) (h : A.shape ≠ []) :
    atleast_1d A = A := by
  unfold atleast_1d
  split
  · exact absurd (by assumption) h
  · rfl

/-- Promotion to rank ≥ 2 leaves an array of rank ≥ 2 unchanged. -/
theorem atleast_2d_of_rank2 (A : NDArray) (x y : Nat) (rest : List Nat)
    (h : A.shape = x :: y :: rest) : atleast_2d A = A := by
  unfold atleast_2d
  split
  · rename_i heq; rw [heq] at h; exact absurd h (by simp)
  · rename_i n heq; rw [heq] at h; exact absurd h (by simp)
  · rfl

/-- Promotion to rank ≥ 2 turns a length-n vector into shape (1, n). -/
theorem atleast_2d_shape_of_rank1 (A : NDArray) (n : Nat)
    (h : A.shape = [n]) : (atleast_2d A).shape = [1, n] := by
  unfold atleast_2d
  split
  · rename_i heq; rw [heq] at h; exact absurd h (by simp)
  · rename_i m heq; rw [heq] at h
    simp only [List.cons.injEq] at h
    simp [h.1]
  · rename_i x y rest heq; rw [heq] at h; exact absurd h (by simp)

/-- Transposition reverses the shape. -/
theorem npTranspose_shape (A : NDArray) :
    (npTranspose A).shape = A.shape.reverse := rfl

/-- Closed form of the constructor for a non-null domain: the domain is
attached on a direct shape match, else on a transposed match; on a double
mismatch the transposed array is returned with a null domain, and no
error is ever produced. -/
theorem Field.new_some (A : NDArray) (D : Domain) :
    Field.new A (some D) =
      (if (atleast_1d A).shape = D.shape then
        .ok ⟨atleast_1d A, some D⟩
      else if (npTranspose (atleast_2d (atleast_1d A))).shape = D.shape then
        .ok ⟨npTranspose (atleast_2d (atleast_1d A)), some D⟩
      else
        .ok ⟨npTranspose (atleast_2d (atleast_1d A)), none⟩) := by
  unfold Field.new shapeAttr viewAsField deriveField
  rfl

/-- `zipWith` against a mapped right operand. -/
theorem zipWith_map_r (g : ℝ → ℝ → ℝ) (h : ℝ → ℝ) (l1 l2 : List ℝ) :
    List.zipWith g l1 (l2.map h) =
      List.zipWith (fun a b => g a (h b)) l1 l2 := by
  induction l1 generalizing l2 with
  | nil => rfl
  | cons x xs ih =>
    cases l2 with
    | nil => rfl
    | cons y ys => simp [ih]

/-- `zipWith` against a replicated left operand of matching length. -/
theorem zipWith_replicate_l (g : ℝ → ℝ → ℝ) (c : ℝ) (l : List ℝ) :
    List.zipWith g (List.replicate l.length c) l = l.map (g c) := by
  induction l with
  | nil => rfl
  | cons x xs ih => simp [List.replicate_succ, ih]

/-- Closed form of `global_mean` on the success path: when the domain
holds a `'lat'` axis and the squeezed contents form a vector matching the
latitude points, the result is the cos-latitude weighted mean. -/
theorem global_mean_eval (f : Field) (d : Domain) (ax : Axis)
    (hd : f.domain = some d) (hax : d.axes.lookup "lat" = some ax)
    (hsh : f.arr.squeeze.shape = [ax.points.length]) :
    global_mean f = .ok
      ((List.zipWith (fun x w => x * Real.cos (deg2rad w))
          f.arr.squeeze.data ax.points).sum /
        (ax.points.map (fun w => Real.cos (deg2rad w))).sum) := by
  have hlook : lookupLat f = .ok ax.points := by
    unfold lookupLat
    rw [hd]
    simp only [hax]
  have hc : f.arr.squeeze.shape = [(ax.points.map deg2rad).length] := by
    rw [List.length_map]; exact hsh
  have h1 : global_mean f =
      global_mean_aux f.arr.squeeze (ax.points.map deg2rad) := by
    unfold global_mean
    rw [hlook]
  rw [h1]
  unfold global_mean_aux mulCos
  split
  · simp only [bind, Except.bind, pure, Except.pure, Except.ok.injEq]
    rw [zipWith_map_r, List.map_map]
    rfl
  · rename_i hno
    exact absurd hc hno

/-- A concrete 2×3 array (contents 1..6). -/
def arr23 : NDArray := ⟨[2, 3], [1, 2, 3, 4, 5, 6], by rfl⟩

/-- A concrete length-3 vector of ones. -/
def vec3 : NDArray := ⟨[3], [1, 1, 1], by rfl⟩

/-- A concrete length-3 vector. -/
def vec3b : NDArray := ⟨[3], [4, 5, 6], by rfl⟩

/-- A concrete length-2 vector. -/
def vec2 : NDArray := ⟨[2], [10, 20], by rfl⟩

/-- A latitude axis at -45, 0, 45 degrees. -/
def axLat : Axis := ⟨[-45, 0, 45]⟩

/-- A domain of shape (3,) with the latitude axis `axLat`. -/
def dLat : Domain := ⟨[3], [("lat", axLat)]⟩

/-- A domain of shape (4, 5) with no axes. -/
def dom45 : Domain := ⟨[4, 5], []⟩

/-- A domain of shape (3, 2) with no axes. -/
def dom32 : Domain := ⟨[3, 2], []⟩

/-- A column-vector domain of shape (2, 1). -/
def dom21 : Domain := ⟨[2, 1], []⟩

/-- A Field of ones over the latitude domain `dLat`. -/
def fLat : Field := ⟨vec3, some dLat⟩

/-- A Field with no domain attached. -/
def gNone : Field := ⟨vec3b, none⟩

/-- `_global_mean` never produces the NoLatitudeAxis ValueError: its only
failure mode is the engine's broadcast error. -/
theorem global_mean_aux_ne_value_error (a : NDArray) (l : List ℝ)
    (s : String) : global_mean_aux a l ≠ .error (.valueError s) := by
  unfold global_mean_aux mulCos
  split
  · intro hcon
    simp [bind, Except.bind, pure, Except.pure] at hcon
  · intro hcon
    simp [bind, Except.bind] at hcon

/-- The cos-latitude weights at -45, 0, 45 degrees have positive sum. -/
theorem axLat_weights_pos :
    0 < (axLat.points.map (fun w => Real.cos (deg2rad w))).sum := by
  have hpi := Real.pi_pos
  have h1 : (0:ℝ) ≤ Real.cos (deg2rad (-45)) := by
    apply Real.cos_nonneg_of_mem_Icc
    rw [Set.mem_Icc]
    unfold deg2rad
    constructor <;> nlinarith
  have h2 : Real.cos (deg2rad 0) = 1 := by
    unfold deg2rad
    norm_num
  have h3 : (0:ℝ) ≤ Real.cos (deg2rad 45) := by
    apply Real.cos_nonneg_of_mem_Icc
    rw [Set.mem_Icc]
    unfold deg2rad
    constructor <;> nlinarith
  simp only [axLat, List.map_cons, List.map_nil, List.sum_cons,
    List.sum_nil]
  rw [h2]
  linarith

/-! ## Claims -/

/-- C1: evaluating the constructor at the failing input — an array of
shape (2, 3) against a domain of shape (4, 5), matching neither directly
nor after transposition — shows it does NOT fail with the documented
ShapeMismatch ValueError: it returns normally, yielding the transposed
array with a null domain (the `except` clause holding the ValueError is
unreachable because nothing in the `try` body can raise). -/
theorem c1_double_mismatch_returns_ok :
    Field.new arr23 (some dom45) =
      .ok ⟨npTranspose (atleast_2d (atleast_1d arr23)), none⟩ := by
  rw [Field.new_some, if_neg (by decide), if_neg (by decide)]

/-- C2: `Field(A, None)` never succeeds: the unguarded comparison
`obj.shape == domain.shape` evaluates `None.shape` and raises
`AttributeError`, for every input array — contradicting the claimed
null-domain passthrough. -/
theorem c2_null_domain_attribute_error (A : NDArray) :
    Field.new A none = .error .attributeError := rfl

/-- C3: shape-match fast path: when the rank-promoted input's shape
equals the domain's shape, construction succeeds, the contents are
exactly the promoted input, and the attached domain is the given one. -/
theorem c3_shape_match (A : NDArray) (D : Domain)
    (h : (atleast_1d A).shape = D.shape) :
    Field.new A (some D) = .ok ⟨atleast_1d A, some D⟩ := by
  rw [Field.new_some, if_pos h]

/-- C3 witness at a concrete vector and matching domain. -/
theorem c3_shape_match_witness :
    Field.new vec3 (some dLat) = .ok ⟨atleast_1d vec3, some dLat⟩ :=
  c3_shape_match vec3 dLat (by decide)

/-- C4: transpose fallback: a rank-2 input whose shape is the reverse of
the domain's shape (and differs from it) succeeds, returning the
TRANSPOSED contents with the domain attached. -/
theorem c4_transpose_fallback (A : NDArray) (D : Domain) (r c : Nat)
    (hr : A.shape = [r, c]) (hrev : A.shape = D.shape.reverse)
    (hne : A.shape ≠ D.shape) :
    Field.new A (some D) = .ok ⟨npTranspose A, some D⟩ := by
  have h1 : atleast_1d A = A := atleast_1d_of_ne_nil A (by rw [hr]; simp)
  have h2 : atleast_2d A = A := atleast_2d_of_rank2 A r c [] hr
  have h3 : (npTranspose A).shape = D.shape := by
    rw [npTranspose_shape, hrev, List.reverse_reverse]
  rw [Field.new_some, h1, h2, if_neg hne, if_pos h3]

/-- C4 witness: a 2×3 array against a (3, 2) domain. -/
theorem c4_transpose_fallback_witness :
    Field.new arr23 (some dom32) = .ok ⟨npTranspose arr23, some dom32⟩ :=
  c4_transpose_fallback arr23 dom32 2 3 (by decide) (by decide) (by decide)

/-- C5: every derived array — a slice, element-wise arithmetic between
Fields, templated zeros-like creation — carries a domain equal to the
source Field's domain attribute (its domain if it has one, else null),
with no shape re-validation: slicing always succeeds and keeps the full
domain even when the sliced shape no longer matches it. -/
theorem c5_propagation (f g : Field) (i j : Nat)
    (h : f.arr.shape = g.arr.shape) :
    (f.slice i j).domain = f.domain ∧
    f.zerosLike.domain = f.domain ∧
    ∃ s, f.add g = .ok s ∧ s.domain = f.domain := by
  refine ⟨rfl, rfl, ?_⟩
  unfold Field.add
  rw [dif_pos h]
  exact ⟨_, rfl, rfl⟩

/-- C5 witness: a shape-(1,) slice of a Field over a shape-(3,) domain
keeps the (now mismatched) domain, as do zeros-like creation and
addition with a domain-less Field. -/
theorem c5_propagation_witness :
    (fLat.slice 0 1).domain = fLat.domain ∧
    fLat.zerosLike.domain = fLat.domain ∧
    ∃ s, fLat.add gNone = .ok s ∧ s.domain = fLat.domain :=
  c5_propagation fLat gNone 0 1 (by decide)

/-- C6: for a Field whose domain has a latitude axis with points `lat`
(degrees) matching the squeezed contents, `global_mean` returns
`sum(squeeze(field) * cos(deg2rad(lat))) / sum(cos(deg2rad(lat)))`, the
cos-latitude weighted arithmetic mean after removing length-1 axes. -/
theorem c6_global_mean_formula (f : Field) (d : Domain) (ax : Axis)
    (hd : f.domain = some d) (hax : d.axes.lookup "lat" = some ax)
    (hsh : f.arr.squeeze.shape = [ax.points.length]) :
    global_mean f = .ok
      ((List.zipWith (fun x w => x * Real.cos (deg2rad w))
          f.arr.squeeze.data ax.points).sum /
        (ax.points.map (fun w => Real.cos (deg2rad w))).sum) :=
  global_mean_eval f d ax hd hax hsh

/-- C6 witness at the concrete latitude Field `fLat`. -/
theorem c6_global_mean_formula_witness :
    global_mean fLat = .ok
      ((List.zipWith (fun x w => x * Real.cos (deg2rad w))
          fLat.arr.squeeze.data axLat.points).sum /
        (axLat.points.map (fun w => Real.cos (deg2rad w))).sum) :=
  c6_global_mean_formula fLat dLat axLat rfl (by rfl) (by rfl)

/-- C7: `global_mean` fails with the NoLatitudeAxis ValueError
("No latitude axis in input field.") exactly when the lookup
`field.domain.axes['lat'].points` fails (null domain, missing `'lat'`
key); every such underlying cause is folded into this one error. -/
theorem c7_no_latitude_axis_iff (f : Field) :
    global_mean f =
        .error (.valueError "No latitude axis in input field.") ↔
    ∃ e, lookupLat f = .error e := by
  constructor
  · intro h
    cases hl : lookupLat f with
    | error e => exact ⟨e, rfl⟩
    | ok lat =>
      exfalso
      have h2 : global_mean f =
          global_mean_aux f.arr.squeeze (lat.map deg2rad) := by
        unfold global_mean
        rw [hl]
      rw [h2] at h
      exact global_mean_aux_ne_value_error _ _ _ h
  · rintro ⟨e, he⟩
    unfold global_mean
    rw [he]

/-- C8: the weighted mean of a constant field is that constant: for
contents equal to a constant `c` at every latitude point, and weights
with nonzero sum, `global_mean` returns exactly `c` (the weights cancel
between numerator and denominator). -/
theorem c8_constant_field (f : Field) (d : Domain) (ax : Axis) (c : ℝ)
    (hd : f.domain = some d) (hax : d.axes.lookup "lat" = some ax)
    (hdata : f.arr.squeeze.data = List.replicate ax.points.length c)
    (hsh : f.arr.squeeze.shape = [ax.points.length])
    (hw : (ax.points.map (fun w => Real.cos (deg2rad w))).sum ≠ 0) :
    global_mean f = .ok c := by
  rw [global_mean_eval f d ax hd hax hsh, hdata]
  congr 1
  rw [zipWith_replicate_l]
  rw [List.sum_map_mul_left, mul_div_assoc, div_self hw, mul_one]

/-- C8 witness: lat points (-45, 0, 45), contents (1, 1, 1), result 1. -/
theorem c8_constant_field_witness : global_mean fLat = .ok 1 :=
  c8_constant_field fLat dLat axLat 1 rfl (by rfl) (by rfl) (by rfl)
    axLat_weights_pos.ne'

/-- C9: the constructor with any well-formed array and any non-null
domain never raises: a Field is always returned, and in particular on a
double shape mismatch it returns the transposed rank-≥2 promotion with a
null domain, so the ShapeMismatch/ValueError branch is unreachable. -/
theorem c9_constructor_total (A : NDArray) (D : Domain) :
    (∃ f, Field.new A (some D) = .ok f) ∧
    ((atleast_1d A).shape ≠ D.shape →
      (npTranspose (atleast_2d (atleast_1d A))).shape ≠ D.shape →
      Field.new A (some D) =
        .ok ⟨npTranspose (atleast_2d (atleast_1d A)), none⟩) := by
  constructor
  · by_cases h1 : (atleast_1d A).shape = D.shape
    · exact ⟨_, by rw [Field.new_some, if_pos h1]⟩
    · by_cases h2 :
        (npTranspose (atleast_2d (atleast_1d A))).shape = D.shape
      · exact ⟨_, by rw [Field.new_some, if_neg h1, if_pos h2]⟩
      · exact ⟨_, by rw [Field.new_some, if_neg h1, if_neg h2]⟩
  · intro h1 h2
    rw [Field.new_some, if_neg h1, if_neg h2]

/-- C9 witness: a length-3 vector against a (4, 5) domain falls through
both checks and is returned with a null domain. -/
theorem c9_constructor_total_witness :
    Field.new vec3 (some dom45) =
      .ok ⟨npTranspose (atleast_2d (atleast_1d vec3)), none⟩ :=
  (c9_constructor_total vec3 dom45).2 (by decide) (by decide)

/-- C10: a rank-1 vector of length n against a column-vector domain of
shape (n, 1): the fallback promotes the vector to shape (1, n),
transposes it to (n, 1), and attaches the domain. -/
theorem c10_rank1_column (A : NDArray) (D : Domain) (n : Nat)
    (hA : A.shape = [n]) (hD : D.shape = [n, 1]) (_hn : n ≠ 1) :
    Field.new A (some D) = .ok ⟨npTranspose (atleast_2d A), some D⟩ ∧
    (npTranspose (atleast_2d A)).shape = [n, 1] := by
  have h1 : atleast_1d A = A := atleast_1d_of_ne_nil A (by rw [hA]; simp)
  have hsh : (atleast_2d A).shape = [1, n] := atleast_2d_shape_of_rank1 A n hA
  have htr : (npTranspose (atleast_2d A)).shape = [n, 1] := by
    rw [npTranspose_shape, hsh]
    rfl
  refine ⟨?_, htr⟩
  rw [Field.new_some, h1, if_neg (by rw [hA, hD]; simp),
    if_pos (by rw [htr, hD])]

/-- C10 witness: a length-2 vector against a (2, 1) domain. -/
theorem c10_rank1_column_witness :
    Field.new vec2 (some dom21) =
      .ok ⟨npTranspose (atleast_2d vec2), some dom21⟩ ∧
    (npTranspose (atleast_2d vec2)).shape = [2, 1] :=
  c10_rank1_column vec2 dom21 2 (by decide) (by decide) (by decide)

end Climlab
